import Mathlib

/-!
# pso2 proxy: peer registry, forwarding handlers and proxy set-up

A shallow embedding of `net/proxy.go` and of `main` in `cmd/pso2-net/net.go`
up to its final wait.

* Pointers are `Option Nat` where they may be nil (`none` is the nil pointer)
  and plain `Nat` heap addresses where the code never holds a nil one.
* Go maps are association lists with unique keys (`GoMap`).
* The heap (`World`) holds the proxies and the connections reachable through
  those pointers; every operation passes it explicitly.
* A Go run-time panic is the `Except.error` branch of an operation's outcome;
  in `main` the error branch is the process exit of `ragequit`.
* What `main` gets from outside (files, binds, address parsing) is a parameter
  (`Env`), like the constants of package `packets` (`PacketConsts`).
* `sync.Mutex` sections contain a single map operation each; the sequential
  model keeps the map operation and drops the lock.  Logger calls are dropped.
* The packet codec (package `packets`) is not part of the sources; it is a
  parameter (`Codec`) of every handler.
-/

namespace Pso2

/-! ## Go maps -/

/-- Go map: association list, each key at most once (kept by `set` and `delete`). -/
abbrev GoMap (K V : Type) := List (K × V)

namespace GoMap

variable {K V : Type} [DecidableEq K]

/-- The two-valued map read `v, ok := m[k]`: `none` when `k` is not a key. -/
def get? : GoMap K V → K → Option V
  | [], _ => none
  | (k', v) :: rest, k => if k' = k then some v else get? rest k

/-- The builtin `delete(m, k)`. -/
def delete (m : GoMap K V) (k : K) : GoMap K V :=
  m.filter (fun e => decide (e.1 ≠ k))

/-- The assignment `m[k] = v`. -/
def set (m : GoMap K V) (k : K) (v : V) : GoMap K V :=
  (k, v) :: delete m k

/-- The keys of the map. -/
def keys (m : GoMap K V) : List K :=
  m.map Prod.fst

end GoMap

/-! ## Data model -/

/-- Go `error` values; a nil error is `none : Option Err`. -/
inductive Err where
  | transport (n : Nat)
  | codec (n : Nat)
  | crypto (n : Nat)
deriving DecidableEq, Repr

/-- Go run-time panics. -/
inductive Fault where
  | nilDereference
deriving DecidableEq, Repr

/-- A `net.IP` (byte slice); `none` is the nil slice. -/
abbrev IP := Option (List Nat)

/-- Key bytes (session key, RC4 key). -/
abbrev Key := List Nat

/-- An `*rsa.PrivateKey` target. -/
structure PrivateKey where
  id : Nat
deriving DecidableEq, Repr

/-- An `*rsa.PublicKey` target. -/
structure PublicKey where
  id : Nat
deriving DecidableEq, Repr

/-- Modelled from the spec: `packets.Packet` is not among the sources; the spec
describes it as a binary message with a 16-bit type identifier and a payload. -/
structure Packet where
  type : Nat
  data : List Nat
deriving DecidableEq, Repr

/-- Modelled from the spec: `packets.ShipEntry` is not among the sources; the
spec describes an entry carrying an address and a port (`0.0.0.0:12099`);
`extra` stands for every other field of the entry. -/
structure ShipEntry where
  address : IP
  port : Nat
  extra : List Nat
deriving DecidableEq, Repr

/-- Modelled from the spec: `ShipEntry.SetAddress` is not among the sources; the
spec has the rewrite replace the embedded address of the entry, the rest of the
entry staying byte-for-byte identical. -/
def ShipEntry.SetAddress (e : ShipEntry) (ip : IP) : ShipEntry :=
  { e with address := ip }

/-- Modelled from the spec: `packets.Ship`, the typed view of a ship packet, is
not among the sources: a collection of entries; `extra` stands for every other
field of the view. -/
structure Ship where
  Entries : List ShipEntry
  extra : List Nat
deriving DecidableEq, Repr

/-- The typed view `packets.Block`; its fields are only seen by the codec. -/
structure Block where
  raw : List Nat
deriving DecidableEq, Repr

/-- The typed view `packets.Cipher`; its fields are only seen by the codec. -/
structure Cipher where
  raw : List Nat
deriving DecidableEq, Repr

/-- The operations of package `packets` that `proxy.go` calls.  The package is
not among the sources: each operation is a parameter with the shape of its call
site (`Except Err` for a `(value, error)` result). -/
structure Codec where
  ParseShip : Packet → Except Err Ship
  ShipPacket : Ship → Except Err Packet
  ParseBlock : Packet → Except Err Block
  BlockSetAddress : Block → IP → Block
  BlockPacket : Block → Except Err Packet
  ParseCipher : Packet → Except Err Cipher
  CipherKey : Cipher → Option PrivateKey → Except Err Key
  CipherRC4Key : Key → Except Err Key
  CipherSetKey : Cipher → Key → Option PublicKey → Cipher
  CipherPacket : Cipher → Except Err Packet

/-- A `*Connection`; `none` is nil. -/
abbrev ConnPtr := Option Nat

/-- Modelled from the spec: `Connection` is not among the sources.  The spec
gives it a byte stream, a cipher state (initially none) and framed writes that
encipher with the active cipher.  `frames` lists the packets written so far,
each with the cipher that was active when it was written; `streamErr` is the
stream error, if any, that makes a write fail. -/
structure Connection where
  frames : List (Packet × Option Key)
  cipher : Option Key
  streamErr : Option Err
deriving DecidableEq, Repr

/-- The struct `Proxy` (`connectionsLock` is dropped, see the header). -/
structure Proxy where
  serverEndpoint : String
  clientEndpoint : String
  connections : GoMap ConnPtr ConnPtr
deriving DecidableEq, Repr

/-- The heap: proxies and connections by address. -/
structure World where
  proxies : Nat → Proxy
  conns : Nat → Connection

/-- Store a connection at an address. -/
def World.setConn (w : World) (i : Nat) (c : Connection) : World :=
  { w with conns := fun j => if j = i then c else w.conns j }

/-- Store a proxy at an address. -/
def World.setProxy (w : World) (i : Nat) (p : Proxy) : World :=
  { w with proxies := fun j => if j = i then p else w.proxies j }

/-- Modelled from the spec: `Connection.WritePacket` is not among the sources.
The spec: enciphers (if a cipher is active) and writes one complete frame, and
fails with the transport error on a stream error.  Both the stream and the
cipher state are fields of the receiver, so a nil receiver is a nil-pointer
dereference; the spec calls using a missing peer a panic. -/
def Connection.WritePacket (d : ConnPtr) (p : Packet) (w : World) :
    World × Except Fault (Option Err) :=
  match d with
  | none => (w, .error .nilDereference)
  | some i =>
    match (w.conns i).streamErr with
    | some e => (w, .ok (some e))
    | none =>
      (w.setConn i { w.conns i with frames := (w.conns i).frames ++ [(p, (w.conns i).cipher)] },
        .ok none)

/-- Modelled from the spec: `Connection.SetCipher` is not among the sources.
The spec: installs an RC4 keystream seeded from the key, later reads and writes
apply it, a second call overwrites; the spec lists no failure for it. -/
def Connection.SetCipher (d : ConnPtr) (key : Key) (w : World) :
    World × Except Fault (Option Err) :=
  match d with
  | none => (w, .error .nilDereference)
  | some i => (w.setConn i { w.conns i with cipher := some key }, .ok none)

/-! ## `proxy.go` -/

/-- The constructor `NewProxy`. -/
def NewProxy (serverEndpoint clientEndpoint : String) : Proxy :=
  { serverEndpoint := serverEndpoint, clientEndpoint := clientEndpoint, connections := [] }

/-- The method `Proxy.Listen`: `net.Listen("tcp4", p.serverEndpoint)`.  `listen`
is the answer of the operating system for an address (`none` is success); the
listener is identified by the address it is bound to. -/
def Proxy.Listen (listen : String → Option Err) (p : Proxy) : Except Err String :=
  match listen p.serverEndpoint with
  | some err => .error err
  | none => .ok p.serverEndpoint

/-- The method `Proxy.Destination`: the map read `d = p.connections[c]`, which
gives the zero value nil when `c` is not a key.  The world is passed through. -/
def Proxy.Destination (p : Nat) (c : ConnPtr) (w : World) : ConnPtr × World :=
  (((w.proxies p).connections.get? c).getD none, w)

/-- The registration section of `Proxy.Proxy`:
`p.connections[server] = client; p.connections[client] = server`. -/
def Proxy.register (p : Nat) (server client : ConnPtr) (w : World) : World :=
  let m1 := (w.proxies p).connections.set server client
  let m2 := m1.set client server
  w.setProxy p { w.proxies p with connections := m2 }

/-- The deregistration section of `Proxy.Proxy`:
`delete(p.connections, server); delete(p.connections, client)`. -/
def Proxy.deregister (p : Nat) (server client : ConnPtr) (w : World) : World :=
  let m1 := (w.proxies p).connections.delete server
  let m2 := m1.delete client
  w.setProxy p { w.proxies p with connections := m2 }

/-- The outcome of a `HandlePacket` call: the heap afterwards and either the
returned pair `(consumed, err)` or a panic. -/
abbrev Handled := World × Except Fault (Bool × Option Err)

/-- The statement `return true, dest.WritePacket(p)`. -/
def forward (dest : ConnPtr) (p : Packet) (w : World) : Handled :=
  match Connection.WritePacket dest p w with
  | (w1, .error f) => (w1, .error f)
  | (w1, .ok err) => (w1, .ok (true, err))

/-- The struct `proxyHandlerShip`. -/
structure proxyHandlerShip where
  proxy : Nat
  addr : IP

/-- The constructor `ProxyHandlerShip` of `proxy.go`. -/
def ProxyHandlerShip (p : Nat) (ip : IP) : proxyHandlerShip :=
  { proxy := p, addr := ip }

/-- The loop of `proxyHandlerShip.HandlePacket` over `s.Entries`: every entry is
rewritten in place when `h.addr != nil`. -/
def rewriteEntries (addr : IP) : List ShipEntry → List ShipEntry
  | [] => []
  | e :: rest => (if addr ≠ none then e.SetAddress addr else e) :: rewriteEntries addr rest

/-- The method `proxyHandlerShip.HandlePacket`. -/
def proxyHandlerShip.HandlePacket (codec : Codec) (h : proxyHandlerShip) (c : ConnPtr)
    (p : Packet) (w : World) : Handled :=
  match codec.ParseShip p with
  | .error err => (w, .ok (false, some err))
  | .ok s =>
    let s1 : Ship := { s with Entries := rewriteEntries h.addr s.Entries }
    match codec.ShipPacket s1 with
    | .error err => (w, .ok (false, some err))
    | .ok p1 =>
      let (d, w1) := Proxy.Destination h.proxy c w
      forward d p1 w1

/-- The struct `proxyHandlerBlock`. -/
structure proxyHandlerBlock where
  proxy : Nat
  addr : IP

/-- The constructor `ProxyHandlerBlock` of `proxy.go`. -/
def ProxyHandlerBlock (p : Nat) (ip : IP) : proxyHandlerBlock :=
  { proxy := p, addr := ip }

/-- The method `proxyHandlerBlock.HandlePacket`. -/
def proxyHandlerBlock.HandlePacket (codec : Codec) (h : proxyHandlerBlock) (c : ConnPtr)
    (p : Packet) (w : World) : Handled :=
  match codec.ParseBlock p with
  | .error err => (w, .ok (false, some err))
  | .ok b =>
    let b1 := codec.BlockSetAddress b h.addr
    match codec.BlockPacket b1 with
    | .error err => (w, .ok (false, some err))
    | .ok p1 =>
      let (d, w1) := Proxy.Destination h.proxy c w
      forward d p1 w1

/-- The struct `proxyHandlerCipher`. -/
structure proxyHandlerCipher where
  proxy : Nat
  privateKey : Option PrivateKey
  publicKey : Option PublicKey

/-- The constructor `ProxyHandlerCipher` of `proxy.go`. -/
def ProxyHandlerCipher (p : Nat) (privateKey : Option PrivateKey)
    (publicKey : Option PublicKey) : proxyHandlerCipher :=
  { proxy := p, privateKey := privateKey, publicKey := publicKey }

/-- The tail of `proxyHandlerCipher.HandlePacket`:
`err = dest.WritePacket(p); if err == nil { err = dest.SetCipher(rc4key) }; return true, err`. -/
def writeThenSetCipher (dest : ConnPtr) (p : Packet) (rc4key : Key) (w : World) : Handled :=
  match Connection.WritePacket dest p w with
  | (w1, .error f) => (w1, .error f)
  | (w1, .ok (some err)) => (w1, .ok (true, some err))
  | (w1, .ok none) =>
    match Connection.SetCipher dest rc4key w1 with
    | (w2, .error f) => (w2, .error f)
    | (w2, .ok err) => (w2, .ok (true, err))

/-- The method `proxyHandlerCipher.HandlePacket`. -/
def proxyHandlerCipher.HandlePacket (codec : Codec) (h : proxyHandlerCipher) (c : ConnPtr)
    (p : Packet) (w : World) : Handled :=
  match codec.ParseCipher p with
  | .error err => (w, .ok (false, some err))
  | .ok b =>
    match codec.CipherKey b h.privateKey with
    | .error err => (w, .ok (false, some err))
    | .ok key =>
      match codec.CipherRC4Key key with
      | .error err => (w, .ok (false, some err))
      | .ok rc4key =>
        let b1 := codec.CipherSetKey b key h.publicKey
        match codec.CipherPacket b1 with
        | .error err => (w, .ok (false, some err))
        | .ok p1 =>
          let (dest, w1) := Proxy.Destination h.proxy c w
          writeThenSetCipher dest p1 rc4key w1

/-- The struct `proxyHandlerFallback`. -/
structure proxyHandlerFallback where
  proxy : Nat

/-- The constructor `ProxyHandlerFallback`. -/
def ProxyHandlerFallback (p : Nat) : proxyHandlerFallback :=
  { proxy := p }

/-- The method `proxyHandlerFallback.HandlePacket`. -/
def proxyHandlerFallback.HandlePacket (h : proxyHandlerFallback) (c : ConnPtr)
    (p : Packet) (w : World) : Handled :=
  let (d, w1) := Proxy.Destination h.proxy c w
  forward d p w1

/-! ## `cmd/pso2-net/net.go` -/

/-- A `*pso2net.Proxy`; `none` is nil. -/
abbrev ProxyPtr := Option Nat

/-- The type `EndpointMap`, a `map[uint16]*pso2net.Proxy`. -/
abbrev EndpointMap := GoMap Nat ProxyPtr

/-- The call `fmt.Sprintf("%s:%d", s, n)`. -/
def sprintfHostPort (s : String) (n : Nat) : String :=
  s ++ ":" ++ toString n

/-- The method `EndpointMap.EndpointAnnouncement`.  `ipString` is the standard
library rendering of a `net.IP` under `%s`.  The assignment goes through the
stored pointer (`m.ClientEndpoint`, the field `clientEndpoint` of `proxy.go`);
the else branch only logs a warning.  The map is passed through. -/
def EndpointMap.EndpointAnnouncement (ipString : IP → String) (e : EndpointMap) (ip : IP)
    (port : Nat) (w : World) : EndpointMap × World × Except Fault Unit :=
  match e.get? port with
  | some none => (e, w, .error .nilDereference)
  | some (some m) =>
    (e, w.setProxy m { w.proxies m with clientEndpoint := sprintfHostPort (ipString ip) port },
      .ok ())
  | none => (e, w, .ok ())

/-- The constants and tables of package `packets` that `main` reads; the package
is not among the sources, so they are parameters. -/
structure PacketConsts where
  ShipCount : Nat
  ShipHostnames : Nat → String
  TypeShip : Nat
  TypeBlock : Nat
  TypeRoom : Nat
  TypeRoomTeam : Nat
  TypeBlockResponse : Nat
  TypeBlocks : Nat
  TypeBlocks2 : Nat
  TypeCipher : Nat

/-- What `main` takes from outside the program: the standard library parse of
an address, the two key files, the replay of a dump file and the binds.  For the
loaders and the replay the argument is the file name, and an error covers
`os.Open` too; `Listen` answers for an address, `none` being success. -/
structure Env where
  ParseIP : String → IP
  LoadPrivateKey : String → Except Err PrivateKey
  LoadPublicKey : String → Except Err PublicKey
  Replay : String → Option Err
  Listen : String → Option Err

/-- The string flags of `main` (`-log` only sets the log level and is left out). -/
structure Flags where
  flagPrivateKey : String
  flagPublicKey : String
  flagIP : String
  flagBind : String
  flagProxy : String
  flagDump : String
  flagReplay : String

/-- The variables of `main` that the proxy set-up reads: flags, the external
address and the two keys (nil when the matching flag is empty). -/
structure MainVars where
  flagBind : String
  flagProxy : String
  flagDump : String
  ip : IP
  keyPrivate : Option PrivateKey
  keyPublic : Option PublicKey

/-- A key-loading block of `main`: with an empty flag the key variable keeps its
nil zero value; otherwise the file is loaded and a failure ends the process
(`ragequit`), which is the error branch. -/
def loadKey {α : Type} (load : String → Except Err α) (flag : String) : Except Err (Option α) :=
  if flag ≠ "" then
    match load flag with
    | .ok k => .ok (some k)
    | .error e => .error e
  else .ok none

/-- The head of `main` up to the replay test: `ip` is `net.IPv4(127, 0, 0, 1)`
(its 16-byte form) unless `-addr` is given, then both key-loading blocks run. -/
def mainVars (env : Env) (f : Flags) : Except Err MainVars :=
  let ip : IP :=
    if f.flagIP ≠ "" then env.ParseIP f.flagIP
    else some [0, 0, 0, 0, 0, 0, 0, 0, 0, 0, 255, 255, 127, 0, 0, 1]
  match loadKey env.LoadPrivateKey f.flagPrivateKey with
  | .error e => .error e
  | .ok keyPrivate =>
    match loadKey env.LoadPublicKey f.flagPublicKey with
    | .error e => .error e
    | .ok keyPublic =>
      .ok { flagBind := f.flagBind, flagProxy := f.flagProxy, flagDump := f.flagDump, ip := ip,
            keyPrivate := keyPrivate, keyPublic := keyPublic }

/-- The three route priorities. -/
inductive RoutePriority where
  | RoutePriorityHigh
  | RoutePriorityNormal
  | RoutePriorityLow
deriving DecidableEq, Repr

/-- The handler values that `main` puts into routes.  `ship`, `block`, `room`,
`blockResponse` and `blocks` are the calls that also receive the shared
`endpoints` map; it is one map, held by reference, and is not repeated here. -/
inductive PacketHandler where
  | fallback (h : proxyHandlerFallback)
  | cipher (h : proxyHandlerCipher)
  | ship (proxy : Nat) (ip : IP)
  | block (proxy : Nat) (ip : IP)
  | room (proxy : Nat) (ip : IP)
  | blockResponse (proxy : Nat) (ip : IP)
  | blocks (proxy : Nat) (ip : IP)
  | handlerCipher (privateKey : Option PrivateKey)
  | handlerDump (dir : String)
  | handlerIgnore (h : PacketHandler)

/-- Type matcher of a route entry: an exact identifier or a mask. -/
inductive Matcher where
  | exact (t : Nat)
  | mask (m : Nat)
deriving DecidableEq, Repr

/-- One entry of a route. -/
structure RouteEntry where
  matcher : Matcher
  priority : RoutePriority
  handler : PacketHandler

/-- Modelled from the spec: `PacketRoute` is not among the sources; the spec
describes it as an ordered list of (type-matcher, priority, handler) entries. -/
abbrev PacketRoute := List RouteEntry

/-- Modelled from the spec: `PacketRoute.Route` registers an exact-match entry. -/
def PacketRoute.Route (r : PacketRoute) (t : Nat) (priority : RoutePriority)
    (h : PacketHandler) : PacketRoute :=
  r ++ [{ matcher := .exact t, priority := priority, handler := h }]

/-- Modelled from the spec: `PacketRoute.RouteMask` registers a mask-match entry. -/
def PacketRoute.RouteMask (r : PacketRoute) (m : Nat) (priority : RoutePriority)
    (h : PacketHandler) : PacketRoute :=
  r ++ [{ matcher := .mask m, priority := priority, handler := h }]

/-- One completed `startProxy(p, s, c)` call: the proxy is bound to `listener`
and its accept loop runs with server route `s` and client route `c`. -/
structure Started where
  proxy : Nat
  listener : String
  serverRoute : PacketRoute
  clientRoute : PacketRoute

/-- The state of the proxy set-up: the proxies allocated so far (`next` is the
next free address), the `endpoints` map and the started proxies in order. -/
structure MainState where
  proxies : Nat → Proxy
  next : Nat
  endpoints : EndpointMap
  started : List Started

/-- The state at `endpoints := make(EndpointMap)`. -/
def MainState.init : MainState :=
  { proxies := fun _ => NewProxy "" "", next := 0, endpoints := [], started := [] }

/-- Conversion to `uint16`. -/
def toUint16 (n : Nat) : Nat :=
  n % 65536

/-- The closure `fallbackRoute` of `main`. -/
def fallbackRoute (v : MainVars) (p : Nat) : PacketRoute :=
  let r : PacketRoute := []
  let r := r.RouteMask 0xffff .RoutePriorityLow (.fallback (ProxyHandlerFallback p))
  if v.flagDump ≠ "" then
    r.RouteMask 0xffff .RoutePriorityHigh (.handlerIgnore (.handlerDump v.flagDump))
  else r

/-- The closure `newProxy` of `main`: a fresh proxy listening on `flagBind:port`
with upstream target `host:port`. -/
def newProxy (v : MainVars) (host : String) (port : Nat) (st : MainState) : Nat × MainState :=
  (st.next,
    { st with
      proxies := fun j =>
        if j = st.next then NewProxy (sprintfHostPort v.flagBind port) (sprintfHostPort host port)
        else st.proxies j
      next := st.next + 1 })

/-- The closure `startProxy` of `main`: `p.Listen()`, then `ragequit`, which
ends the process on a bind error (the error branch), then the accept loop is
started on the listener. -/
def startProxy (listen : String → Option Err) (p : Nat) (s c : PacketRoute) (st : MainState) :
    Except Err MainState :=
  match Proxy.Listen listen (st.proxies p) with
  | .error err => .error err
  | .ok l =>
    .ok { st with
          started := st.started ++
            [{ proxy := p, listener := l, serverRoute := s, clientRoute := c }] }

/-- A `for` loop whose body may end the process: the iterations run in order
until one of them exits. -/
def forEach {α : Type} (body : MainState → α → Except Err MainState) :
    List α → MainState → Except Err MainState
  | [], st => .ok st
  | a :: rest, st =>
    match body st a with
    | .error err => .error err
    | .ok st1 => forEach body rest st1

/-- The closure `hostname` of `main`. -/
def hostname (k : PacketConsts) (v : MainVars) (ship : Nat) : String :=
  if v.flagProxy ≠ "" then v.flagProxy else k.ShipHostnames ship

/-- The dump entry that every route of `main` gets when `flagDump` is set. -/
def withDump (v : MainVars) (r : PacketRoute) : PacketRoute :=
  if v.flagDump ≠ "" then
    r.RouteMask 0xffff .RoutePriorityHigh (.handlerIgnore (.handlerDump v.flagDump))
  else r

/-- The client route of a ship proxy. -/
def shipRoute (k : PacketConsts) (v : MainVars) (proxy : Nat) : PacketRoute :=
  let route : PacketRoute := []
  let route := route.Route k.TypeShip .RoutePriorityNormal (.ship proxy v.ip)
  let route := route.RouteMask 0xffff .RoutePriorityLow (.fallback (ProxyHandlerFallback proxy))
  withDump v route

/-- The client route of the block proxy at offset 0. -/
def blockRoute (k : PacketConsts) (v : MainVars) (proxy : Nat) : PacketRoute :=
  let route : PacketRoute := []
  let route := route.Route k.TypeBlock .RoutePriorityNormal (.block proxy v.ip)
  let route := route.RouteMask 0xffff .RoutePriorityLow (.fallback (ProxyHandlerFallback proxy))
  withDump v route

/-- The client route of the proxies at offsets 1..98 (messages from the server). -/
def clientRoute (k : PacketConsts) (v : MainVars) (proxy : Nat) : PacketRoute :=
  let route : PacketRoute := []
  let route := route.Route k.TypeRoom .RoutePriorityNormal (.room proxy v.ip)
  let route := route.Route k.TypeRoomTeam .RoutePriorityNormal (.room proxy v.ip)
  let route := route.Route k.TypeBlockResponse .RoutePriorityNormal (.blockResponse proxy v.ip)
  let route := route.Route k.TypeBlocks .RoutePriorityNormal (.blocks proxy v.ip)
  let route := route.Route k.TypeBlocks2 .RoutePriorityNormal (.blocks proxy v.ip)
  let route := route.RouteMask 0xffff .RoutePriorityLow (.fallback (ProxyHandlerFallback proxy))
  withDump v route

/-- The server route `sroute` of the proxies at offsets 1..98 (messages from the
client): both cipher entries, the fallback and the dump entry. -/
def serverRoute (k : PacketConsts) (v : MainVars) (proxy : Nat) : PacketRoute :=
  let sroute : PacketRoute := []
  let sroute := sroute.Route k.TypeCipher .RoutePriorityHigh
    (.handlerIgnore (.handlerCipher v.keyPrivate))
  let sroute := sroute.Route k.TypeCipher .RoutePriorityNormal
    (.cipher (ProxyHandlerCipher proxy v.keyPrivate v.keyPublic))
  let sroute := sroute.RouteMask 0xffff .RoutePriorityLow (.fallback (ProxyHandlerFallback proxy))
  withDump v sroute

/-- The assignment `endpoints[port] = proxy`. -/
def setEndpoint (port proxy : Nat) (st : MainState) : MainState :=
  { st with endpoints := st.endpoints.set port (some proxy) }

/-- One iteration of the inner loop `for b := uint16(1); b < 99; b++`. -/
def blockIteration (listen : String → Option Err) (k : PacketConsts) (v : MainVars)
    (i blockPort : Nat) (st : MainState) (b : Nat) : Except Err MainState :=
  let port := toUint16 (blockPort + b)
  let (proxy, st) := newProxy v (hostname k v i) port st
  let route := clientRoute k v proxy
  let sroute := serverRoute k v proxy
  let st := setEndpoint port proxy st
  startProxy listen proxy sroute route st

/-- One iteration of the outer loop `for i := 0; i < packets.ShipCount; i++`.
The sum `12000 + 100*i` is an `int`; its conversion to `uint16` keeps the low 16
bits, which the remainder gives whatever the width of `int`. -/
def shipIteration (listen : String → Option Err) (k : PacketConsts) (v : MainVars)
    (st : MainState) (i : Nat) : Except Err MainState :=
  let blockPort := toUint16 (12000 + 100 * i)
  let shipPort := toUint16 (blockPort + 99)
  let (proxy, st) := newProxy v (hostname k v i) shipPort st
  let route := shipRoute k v proxy
  let st := setEndpoint shipPort proxy st
  match startProxy listen proxy (fallbackRoute v proxy) route st with
  | .error err => .error err
  | .ok st =>
    let (proxy, st) := newProxy v (hostname k v i) blockPort st
    let route := blockRoute k v proxy
    let st := setEndpoint blockPort proxy st
    match startProxy listen proxy (fallbackRoute v proxy) route st with
    | .error err => .error err
    | .ok st => forEach (blockIteration listen k v i blockPort) (List.range' 1 98) st

/-- The proxy set-up of `main` (the else branch of the replay test): the outer
loop from the empty `endpoints` map. -/
def setupProxies (listen : String → Option Err) (k : PacketConsts) (v : MainVars) :
    Except Err MainState :=
  forEach (shipIteration listen k v) (List.range k.ShipCount) MainState.init

/-- The function `main` up to its final wait: the variables are set, then either
the dump named by `-replay` is replayed (no proxy is set up) or the proxies are
set up.  The error branch is the process exit of `ragequit`; the result is the
state in which `main` then waits for ever. -/
def main (env : Env) (k : PacketConsts) (f : Flags) : Except Err MainState :=
  match mainVars env f with
  | .error err => .error err
  | .ok v =>
    if f.flagReplay ≠ "" then
      match env.Replay f.flagReplay with
      | some err => .error err
      | none => .ok MainState.init
    else setupProxies env.Listen k v

/-! ## A concrete codec for running the handlers -/

/-- Entries of a payload, five numbers each: four address bytes and the port. -/
def decodeEntries : List Nat → List ShipEntry
  | a :: b :: c :: d :: port :: rest =>
    { address := some [a, b, c, d], port := port, extra := [] } :: decodeEntries rest
  | _ => []

/-- Payload of a list of entries. -/
def encodeEntries : List ShipEntry → List Nat
  | [] => []
  | e :: rest => e.address.getD [] ++ [e.port] ++ encodeEntries rest

/-- A small codec for concrete runs: ship payloads are lists of five-number
entries; the cipher payload is the key shifted by the private key number, the
RC4 key is the first two key bytes. -/
def sampleCodec : Codec where
  ParseShip := fun p => .ok { Entries := decodeEntries p.data, extra := [] }
  ShipPacket := fun s => .ok { type := 61, data := encodeEntries s.Entries }
  ParseBlock := fun p => .ok { raw := p.data }
  BlockSetAddress := fun b ip => { raw := ip.getD [] ++ b.raw.drop 4 }
  BlockPacket := fun b => .ok { type := 44, data := b.raw }
  ParseCipher := fun p => if p.data = [] then .error (.codec 1) else .ok { raw := p.data }
  CipherKey := fun b priv =>
    match priv with
    | none => .error (.crypto 1)
    | some key => .ok (b.raw.map (fun x => x - key.id))
  CipherRC4Key := fun key => .ok (key.take 2)
  CipherSetKey := fun _ key pub =>
    match pub with
    | none => { raw := key }
    | some pk => { raw := key.map (fun x => x + pk.id) }
  CipherPacket := fun b => .ok { type := 11, data := b.raw }

/-- A connection with nothing written, no cipher and a healthy stream. -/
def freshConnection : Connection :=
  { frames := [], cipher := none, streamErr := none }

/-- A heap with one proxy at address 0 that pairs connections 1 and 2. -/
def pairedWorld : World :=
  { proxies := fun _ =>
      { serverEndpoint := ":12099", clientEndpoint := "ship:12099",
        connections := [(some 2, some 1), (some 1, some 2)] }
    conns := fun _ => freshConnection }

/-- The same heap with an empty registry. -/
def unpairedWorld : World :=
  { proxies := fun _ => NewProxy ":12099" "ship:12099"
    conns := fun _ => freshConnection }

/-- A registry is symmetric when every registered pair is registered in both
directions. -/
def registrySymmetric (m : GoMap ConnPtr ConnPtr) : Prop :=
  ∀ a b, m.get? a = some b → m.get? b = some a

/-- The peer registry of the proxy at address `p`. -/
def registry (p : Nat) (w : World) : GoMap ConnPtr ConnPtr :=
  (w.proxies p).connections

/-- The packet of the ship scenario: one entry `0.0.0.0:12099`. -/
def shipPacket : Packet :=
  { type := 61, data := [0, 0, 0, 0, 12099] }

/-- The connection after a successful `WritePacket`: one more frame, written
under the cipher that was active. -/
def Connection.afterWrite (conn : Connection) (p : Packet) : Connection :=
  { conn with frames := conn.frames ++ [(p, conn.cipher)] }

/-! ## The set-up loop as a list of registrations -/

/-- One proxy registration of the set-up: upstream host, port and the two route
builders; the registration is `newProxy`, `endpoints[port] = proxy`, `startProxy`. -/
structure Job where
  host : String
  port : Nat
  mkServer : Nat → PacketRoute
  mkClient : Nat → PacketRoute

/-- Run one registration; the bind may end the process. -/
def registerJob (listen : String → Option Err) (v : MainVars) (st : MainState) (j : Job) :
    Except Err MainState :=
  startProxy listen st.next (j.mkServer st.next) (j.mkClient st.next)
    (setEndpoint j.port st.next (newProxy v j.host j.port st).2)

/-- The state after one registration whose bind succeeds. -/
def registered (v : MainVars) (st : MainState) (j : Job) : MainState :=
  { proxies := fun x =>
      if x = st.next then NewProxy (sprintfHostPort v.flagBind j.port) (sprintfHostPort j.host j.port)
      else st.proxies x
    next := st.next + 1
    endpoints := st.endpoints.set j.port (some st.next)
    started := st.started ++
      [{ proxy := st.next, listener := sprintfHostPort v.flagBind j.port,
         serverRoute := j.mkServer st.next, clientRoute := j.mkClient st.next }] }

/-- The registrations of ship `i` in program order: the ship proxy, the block
proxy, then the proxies of offsets 1..98. -/
def shipJobs (k : PacketConsts) (v : MainVars) (i : Nat) : List Job :=
  { host := hostname k v i, port := toUint16 (toUint16 (12000 + 100 * i) + 99),
    mkServer := fallbackRoute v, mkClient := shipRoute k v } ::
  { host := hostname k v i, port := toUint16 (12000 + 100 * i),
    mkServer := fallbackRoute v, mkClient := blockRoute k v } ::
  (List.range' 1 98).map (fun b =>
    { host := hostname k v i, port := toUint16 (toUint16 (12000 + 100 * i) + b),
      mkServer := serverRoute k v, mkClient := clientRoute k v })

/-- The registrations of ships `0 .. n-1` in program order. -/
def allJobs (k : PacketConsts) (v : MainVars) : Nat → List Job
  | 0 => []
  | n + 1 => allJobs k v n ++ shipJobs k v n

/-- The state after a list of registrations whose binds all succeed, from the
empty `endpoints` map. -/
def runJobs (v : MainVars) (js : List Job) : MainState :=
  js.foldl (registered v) MainState.init

/-- The package constants used for concrete runs: ten ships. -/
def sampleConsts : PacketConsts :=
  { ShipCount := 10, ShipHostnames := fun i => "gs" ++ toString i, TypeShip := 61,
    TypeBlock := 44, TypeRoom := 23, TypeRoomTeam := 79, TypeBlockResponse := 19,
    TypeBlocks := 16, TypeBlocks2 := 18, TypeCipher := 11 }

/-- The variables of `main` with no key loaded and external address
`203.0.113.5` (16-byte form). -/
def noKeyVars : MainVars :=
  { flagBind := "", flagProxy := "", flagDump := "",
    ip := some [0, 0, 0, 0, 0, 0, 0, 0, 0, 0, 255, 255, 203, 0, 113, 5],
    keyPrivate := none, keyPublic := none }

/-- The flags behind `noKeyVars`: `-addr 203.0.113.5`, neither `-priv` nor `-pub`. -/
def noKeyFlags : Flags :=
  { flagPrivateKey := "", flagPublicKey := "", flagIP := "203.0.113.5", flagBind := "",
    flagProxy := "", flagDump := "", flagReplay := "" }

/-- An environment in which every file loads, the replay ends cleanly and every
bind succeeds. -/
def sampleEnv : Env :=
  { ParseIP := fun _ => some [0, 0, 0, 0, 0, 0, 0, 0, 0, 0, 255, 255, 203, 0, 113, 5]
    LoadPrivateKey := fun _ => .ok { id := 1 }
    LoadPublicKey := fun _ => .ok { id := 2 }
    Replay := fun _ => none
    Listen := fun _ => none }

/-- An endpoint map with the single port 12001 registered for the proxy at 0. -/
def sampleEndpoints : EndpointMap :=
  [(12001, some 0)]

/-! ## Go map facts -/

namespace GoMap

variable {K V : Type} [DecidableEq K]

theorem get?_eq_none_iff (m : GoMap K V) (k : K) : m.get? k = none ↔ k ∉ m.keys := by
  induction m with
  | nil => simp [get?, keys]
  | cons e rest ih =>
    obtain ⟨k', v⟩ := e
    by_cases hk : k' = k
    · simp [get?, keys, hk]
    · have hk' : ¬ k = k' := fun h => hk h.symm
      simpa [get?, keys, hk, hk'] using ih

theorem get?_delete_self (m : GoMap K V) (k : K) : (m.delete k).get? k = none := by
  rw [get?_eq_none_iff]
  simp [delete, keys, List.mem_filter]

theorem delete_cons (e : K × V) (rest : GoMap K V) (k : K) :
    delete (e :: rest) k = if e.1 = k then delete rest k else e :: delete rest k := by
  by_cases hk : e.1 = k <;> simp [delete, List.filter_cons, hk]

theorem get?_delete_ne (m : GoMap K V) (k x : K) (h : x ≠ k) :
    (m.delete k).get? x = m.get? x := by
  induction m with
  | nil => simp [delete, get?]
  | cons e rest ih =>
    obtain ⟨k', v⟩ := e
    rw [delete_cons]
    by_cases hk : k' = k
    · have hx : ¬ k' = x := fun h' => h (h'.symm.trans hk)
      have hkx : ¬ k = x := fun h' => h h'.symm
      simp [get?, hk, hkx, ih]
    · simp [get?, hk, ih]

theorem get?_set_self (m : GoMap K V) (k : K) (v : V) : (m.set k v).get? k = some v := by
  simp [set, get?]

theorem get?_set_ne (m : GoMap K V) (k x : K) (v : V) (h : x ≠ k) :
    (m.set k v).get? x = m.get? x := by
  have hk : ¬ k = x := fun h' => h h'.symm
  simp [set, get?, hk, get?_delete_ne m k x h]

theorem delete_eq_self (m : GoMap K V) (k : K) (h : k ∉ m.keys) : m.delete k = m := by
  unfold delete
  rw [List.filter_eq_self]
  intro e he
  have : e.1 ∈ m.keys := List.mem_map_of_mem Prod.fst he
  have hne : e.1 ≠ k := fun h' => h (h' ▸ this)
  simpa using hne

theorem delete_set_self (m : GoMap K V) (k : K) (v : V) :
    (m.set k v).delete k = m.delete k := by
  simp [set, delete, List.filter_cons, List.filter_filter]

theorem delete_comm (m : GoMap K V) (a b : K) :
    (m.delete a).delete b = (m.delete b).delete a := by
  simp only [delete, List.filter_filter]
  congr 1
  funext e
  exact Bool.and_comm _ _

theorem delete_set_ne (m : GoMap K V) (k x : K) (v : V) (h : k ≠ x) :
    (m.set k v).delete x = (m.delete x).set k v := by
  have hd := delete_comm m k x
  simp [set, delete_cons, h, hd]

end GoMap

/-! ## The peer registry -/

theorem registry_register (p : Nat) (server client : ConnPtr) (w : World) :
    registry p (Proxy.register p server client w)
      = ((registry p w).set server client).set client server := by
  simp [registry, Proxy.register, World.setProxy]

theorem registry_deregister (p : Nat) (server client : ConnPtr) (w : World) :
    registry p (Proxy.deregister p server client w)
      = ((registry p w).delete server).delete client := by
  simp [registry, Proxy.deregister, World.setProxy]

theorem register_get?_server (m : GoMap ConnPtr ConnPtr) (server client : ConnPtr) :
    ((m.set server client).set client server).get? server = some client := by
  by_cases h : server = client
  · subst h
    exact GoMap.get?_set_self _ _ _
  · rw [GoMap.get?_set_ne _ _ _ _ h]
    exact GoMap.get?_set_self _ _ _

theorem register_get?_other (m : GoMap ConnPtr ConnPtr) (server client x : ConnPtr)
    (hs : x ≠ server) (hc : x ≠ client) :
    ((m.set server client).set client server).get? x = m.get? x := by
  rw [GoMap.get?_set_ne _ _ _ _ hc, GoMap.get?_set_ne _ _ _ _ hs]

theorem register_symmetric (m : GoMap ConnPtr ConnPtr) (server client : ConnPtr)
    (hsym : registrySymmetric m) (hs : server ∉ m.keys) (hc : client ∉ m.keys) :
    registrySymmetric ((m.set server client).set client server) := by
  intro a b hab
  by_cases ha : a = client
  · have hb : b = server := by
      rw [ha, GoMap.get?_set_self] at hab
      exact (Option.some.inj hab).symm
    rw [hb, ha]
    exact register_get?_server m server client
  · by_cases ha' : a = server
    · have hb : b = client := by
        rw [ha', register_get?_server] at hab
        exact (Option.some.inj hab).symm
      rw [hb, ha']
      exact GoMap.get?_set_self _ _ _
    · rw [register_get?_other m server client a ha' ha] at hab
      have hba := hsym a b hab
      have hbk : b ∈ m.keys := by
        by_contra hn
        rw [← GoMap.get?_eq_none_iff] at hn
        rw [hn] at hba
        cases hba
      have hb1 : b ≠ server := fun h => hs (h ▸ hbk)
      have hb2 : b ≠ client := fun h => hc (h ▸ hbk)
      rw [register_get?_other m server client b hb1 hb2]
      exact hba

theorem deregister_restores (m : GoMap ConnPtr ConnPtr) (server client : ConnPtr)
    (hs : server ∉ m.keys) (hc : client ∉ m.keys) :
    ((((m.set server client).set client server).delete server).delete client) = m := by
  rw [GoMap.delete_comm, GoMap.delete_set_self, GoMap.delete_comm, GoMap.delete_set_self,
    GoMap.delete_eq_self m server hs, GoMap.delete_eq_self m client hc]

theorem deregister_world (p : Nat) (server client : ConnPtr) (w : World)
    (hs : server ∉ (registry p w).keys) (hc : client ∉ (registry p w).keys) :
    Proxy.deregister p server client (Proxy.register p server client w) = w := by
  have h := deregister_restores (registry p w) server client hs hc
  obtain ⟨proxies, conns⟩ := w
  simp only [Proxy.deregister, Proxy.register, World.setProxy, registry] at h ⊢
  congr 1
  funext j
  by_cases hj : j = p
  · subst hj
    simp only [if_true]
    rw [h]
  · simp [hj]

/-- C3: `Proxy.Destination` never fails and passes the heap (the registry in it)
through unchanged; on a connection that is not a key of the registry it returns
nil, and on a key it returns exactly the connection stored for it. -/
theorem Destination_total (p : Nat) (c : ConnPtr) (w : World) :
    (Proxy.Destination p c w).2 = w ∧
    (c ∉ (registry p w).keys → (Proxy.Destination p c w).1 = none) ∧
    (c ∈ (registry p w).keys →
      ∃ d, (registry p w).get? c = some d ∧ (Proxy.Destination p c w).1 = d) := by
  refine ⟨rfl, ?_, ?_⟩
  · intro hc
    have h := (GoMap.get?_eq_none_iff (registry p w) c).mpr hc
    simp only [registry] at h
    simp [Proxy.Destination, h]
  · intro hc
    cases hg : (registry p w).get? c with
    | none => exact absurd hc ((GoMap.get?_eq_none_iff _ _).mp hg)
    | some d =>
      refine ⟨d, rfl, ?_⟩
      simp only [registry] at hg
      simp [Proxy.Destination, hg]

/-- C3 at a concrete input: connection 7 is not registered and gets nil, the
registered connection 1 gets its peer 2, and the heap is as before. -/
theorem Destination_total_witness :
    (Proxy.Destination 0 (some 7) pairedWorld).2 = pairedWorld ∧
    (Proxy.Destination 0 (some 7) pairedWorld).1 = none ∧
    (∃ d, (registry 0 pairedWorld).get? (some 1) = some d ∧
      (Proxy.Destination 0 (some 1) pairedWorld).1 = d) :=
  ⟨(Destination_total 0 (some 7) pairedWorld).1,
    (Destination_total 0 (some 7) pairedWorld).2.1
      (by simp [registry, pairedWorld, GoMap.keys]),
    (Destination_total 0 (some 1) pairedWorld).2.2
      (by simp [registry, pairedWorld, GoMap.keys])⟩

/-- C5: from a symmetric registry that holds neither `server` nor `client`, the
registration step of `Proxy.Proxy` registers both directions together, the
deregistration step removes both together, each step leaves every other
connection's peer unchanged and the registry symmetric, and after the two steps
the registry (the whole heap) is the one before the session. -/
theorem registry_session_symmetric (p : Nat) (server client : ConnPtr) (w : World)
    (hsym : registrySymmetric (registry p w))
    (hs : server ∉ (registry p w).keys) (hc : client ∉ (registry p w).keys) :
    (Proxy.Destination p server (Proxy.register p server client w)).1 = client ∧
    (Proxy.Destination p client (Proxy.register p server client w)).1 = server ∧
    (registry p (Proxy.register p server client w)).get? server = some client ∧
    (registry p (Proxy.register p server client w)).get? client = some server ∧
    (∀ x, x ≠ server → x ≠ client →
      (registry p (Proxy.register p server client w)).get? x = (registry p w).get? x) ∧
    registrySymmetric (registry p (Proxy.register p server client w)) ∧
    (registry p (Proxy.deregister p server client (Proxy.register p server client w))).get? server
      = none ∧
    (registry p (Proxy.deregister p server client (Proxy.register p server client w))).get? client
      = none ∧
    (∀ x, x ≠ server → x ≠ client →
      (registry p (Proxy.deregister p server client (Proxy.register p server client w))).get? x
        = (registry p (Proxy.register p server client w)).get? x) ∧
    registrySymmetric
      (registry p (Proxy.deregister p server client (Proxy.register p server client w))) ∧
    Proxy.deregister p server client (Proxy.register p server client w) = w := by
  have hS := register_get?_server (registry p w) server client
  have hC : (((registry p w).set server client).set client server).get? client = some server :=
    GoMap.get?_set_self _ _ _
  have hback := deregister_world p server client w hs hc
  have hnS := (GoMap.get?_eq_none_iff _ _).mpr hs
  have hnC := (GoMap.get?_eq_none_iff _ _).mpr hc
  refine ⟨?_, ?_, ?_, ?_, ?_, ?_, ?_, ?_, ?_, ?_, hback⟩
  · have h := hS
    rw [← registry_register p server client w] at h
    simp only [registry] at h
    simp [Proxy.Destination, h]
  · have h := hC
    rw [← registry_register p server client w] at h
    simp only [registry] at h
    simp [Proxy.Destination, h]
  · rw [registry_register]; exact hS
  · rw [registry_register]; exact hC
  · intro x hx1 hx2
    rw [registry_register]
    exact register_get?_other _ _ _ _ hx1 hx2
  · rw [registry_register]
    exact register_symmetric _ _ _ hsym hs hc
  · rw [hback]; exact hnS
  · rw [hback]; exact hnC
  · intro x hx1 hx2
    rw [hback, registry_register]
    exact (register_get?_other _ _ _ _ hx1 hx2).symm
  · rw [hback]; exact hsym

/-- C5 at a concrete input: the session of connections 1 and 2 on an empty registry. -/
theorem registry_session_symmetric_witness :
    registrySymmetric (registry 0 unpairedWorld) ∧
    (Proxy.Destination 0 (some 1) (Proxy.register 0 (some 1) (some 2) unpairedWorld)).1 = some 2 ∧
    (Proxy.Destination 0 (some 2) (Proxy.register 0 (some 1) (some 2) unpairedWorld)).1 = some 1 ∧
    Proxy.deregister 0 (some 1) (some 2) (Proxy.register 0 (some 1) (some 2) unpairedWorld)
      = unpairedWorld := by
  have hsym : registrySymmetric (registry 0 unpairedWorld) := by
    intro a b h
    simp [registry, unpairedWorld, NewProxy, GoMap.get?] at h
  have h := registry_session_symmetric 0 (some 1) (some 2) unpairedWorld hsym
    (by simp [registry, unpairedWorld, NewProxy, GoMap.keys])
    (by simp [registry, unpairedWorld, NewProxy, GoMap.keys])
  exact ⟨hsym, h.1, h.2.1, h.2.2.2.2.2.2.2.2.2.2⟩

/-! ## Forwarding -/

theorem Destination_of_get? (p : Nat) (c d : ConnPtr) (w : World)
    (h : (registry p w).get? c = some d) : Proxy.Destination p c w = (d, w) := by
  simp only [registry] at h
  simp [Proxy.Destination, h]

theorem forward_nil (p : Packet) (w : World) :
    forward none p w = (w, .error .nilDereference) := rfl

theorem forward_ok (d : Nat) (p : Packet) (w : World) (h : (w.conns d).streamErr = none) :
    forward (some d) p w = (w.setConn d ((w.conns d).afterWrite p), .ok (true, none)) := by
  simp [forward, Connection.WritePacket, h, Connection.afterWrite]

theorem forward_err (d : Nat) (p : Packet) (w : World) (e : Err)
    (h : (w.conns d).streamErr = some e) :
    forward (some d) p w = (w, .ok (true, some e)) := by
  simp [forward, Connection.WritePacket, h]

theorem forward_frame (d : Nat) (p : Packet) (w : World) :
    (forward (some d) p w).2 = .ok (true, (w.conns d).streamErr) ∧
    (∀ x, x ≠ d → (forward (some d) p w).1.conns x = w.conns x) ∧
    (forward (some d) p w).1.proxies = w.proxies := by
  cases h : (w.conns d).streamErr with
  | none =>
    rw [forward_ok d p w h]
    refine ⟨rfl, ?_, rfl⟩
    intro x hx
    simp [World.setConn, hx]
  | some e =>
    rw [forward_err d p w e h]
    exact ⟨rfl, fun _ _ => rfl, rfl⟩

/-- C2: with a registered peer `d`, the fallback handler makes exactly the one
write of the packet it was given to `d`: it returns `consumed = true` with the
error of that write; when the write succeeds the only change in the heap is the
frame `p` appended to `d`, and when it fails nothing changes; no other
connection and no proxy is touched. -/
theorem fallback_forwards_unchanged (h : proxyHandlerFallback) (c : ConnPtr) (p : Packet)
    (w : World) (d : Nat) (hd : (registry h.proxy w).get? c = some (some d)) :
    h.HandlePacket c p w = forward (some d) p w ∧
    (h.HandlePacket c p w).1 = (Connection.WritePacket (some d) p w).1 ∧
    (∃ err, (Connection.WritePacket (some d) p w).2 = .ok err ∧
      (h.HandlePacket c p w).2 = .ok (true, err)) ∧
    ((w.conns d).streamErr = none →
      h.HandlePacket c p w = (w.setConn d ((w.conns d).afterWrite p), .ok (true, none))) ∧
    (∀ e, (w.conns d).streamErr = some e → h.HandlePacket c p w = (w, .ok (true, some e))) ∧
    (∀ x, x ≠ d → (h.HandlePacket c p w).1.conns x = w.conns x) ∧
    (h.HandlePacket c p w).1.proxies = w.proxies := by
  have hH : h.HandlePacket c p w = forward (some d) p w := by
    simp [proxyHandlerFallback.HandlePacket, Destination_of_get? h.proxy c (some d) w hd]
  rw [hH]
  refine ⟨rfl, ?_, ?_, fun h0 => forward_ok d p w h0, fun e he => forward_err d p w e he,
    (forward_frame d p w).2.1, (forward_frame d p w).2.2⟩
  · cases h0 : (w.conns d).streamErr <;> simp [forward, Connection.WritePacket, h0]
  · cases h0 : (w.conns d).streamErr <;> simp [forward, Connection.WritePacket, h0]

/-- C2 at a concrete input: a packet of type 7 sent by connection 1 reaches
connection 2 unchanged. -/
theorem fallback_forwards_unchanged_witness :
    (registry 0 pairedWorld).get? (some 1) = some (some 2) ∧
    (ProxyHandlerFallback 0).HandlePacket (some 1) { type := 7, data := [1, 2, 3] } pairedWorld
      = (pairedWorld.setConn 2
          { frames := [({ type := 7, data := [1, 2, 3] }, none)], cipher := none,
            streamErr := none },
        .ok (true, none)) := by
  have hd : (registry 0 pairedWorld).get? (some 1) = some (some 2) := by
    simp [registry, pairedWorld, GoMap.get?]
  have h := fallback_forwards_unchanged (ProxyHandlerFallback 0) (some 1)
    { type := 7, data := [1, 2, 3] } pairedWorld 2 hd
  exact ⟨hd, h.2.2.2.1 rfl⟩

/-! ## The ship handler -/

/-- C6: when the parse, the key decryption with the private key or the RC4-key
derivation fails with `e`, the cipher handler returns `e` (not consumed) and the
heap is unchanged: nothing is written and no cipher is installed. -/
theorem cipher_failure_no_effect (codec : Codec) (h : proxyHandlerCipher) (c : ConnPtr)
    (p : Packet) (w : World) (e : Err)
    (hfail : codec.ParseCipher p = .error e ∨
      ∃ b, codec.ParseCipher p = .ok b ∧
        (codec.CipherKey b h.privateKey = .error e ∨
          ∃ key, codec.CipherKey b h.privateKey = .ok key ∧ codec.CipherRC4Key key = .error e)) :
    h.HandlePacket codec c p w = (w, .ok (false, some e)) := by
  rcases hfail with h1 | ⟨b, hb, h2 | ⟨key, hk, h3⟩⟩
  · simp [proxyHandlerCipher.HandlePacket, h1]
  · simp [proxyHandlerCipher.HandlePacket, hb, h2]
  · simp [proxyHandlerCipher.HandlePacket, hb, hk, h3]

/-- C6 at a concrete input: a cipher packet whose key decryption fails (no
private key) leaves the paired heap as it was. -/
theorem cipher_failure_no_effect_witness :
    (ProxyHandlerCipher 0 none none).HandlePacket sampleCodec (some 1)
        { type := 11, data := [9, 8, 7] } pairedWorld
      = (pairedWorld, .ok (false, some (.crypto 1))) :=
  cipher_failure_no_effect sampleCodec (ProxyHandlerCipher 0 none none) (some 1)
    { type := 11, data := [9, 8, 7] } pairedWorld (.crypto 1)
    (Or.inr ⟨{ raw := [9, 8, 7] }, rfl, Or.inl rfl⟩)

/-- C4 (amended): when the `Destination` lookup of `c` is a miss, no handler
writes to or installs a cipher on any connection (the heap is unchanged), but
none drops the packet either: the fallback handler always, and each other
handler whenever its codec steps succeed, calls `WritePacket` on the nil peer,
which is a nil dereference; when a codec step fails, that error is returned with
`consumed = false`. -/
theorem miss_is_not_dropped (codec : Codec) (pid : Nat) (ip : IP) (priv : Option PrivateKey)
    (pub : Option PublicKey) (c : ConnPtr) (p : Packet) (w : World)
    (hmiss : (Proxy.Destination pid c w).1 = none) :
    (ProxyHandlerFallback pid).HandlePacket c p w = (w, .error .nilDereference) ∧
    (∀ s q, codec.ParseShip p = .ok s →
      codec.ShipPacket { s with Entries := rewriteEntries ip s.Entries } = .ok q →
      (ProxyHandlerShip pid ip).HandlePacket codec c p w = (w, .error .nilDereference)) ∧
    (∀ e, codec.ParseShip p = .error e →
      (ProxyHandlerShip pid ip).HandlePacket codec c p w = (w, .ok (false, some e))) ∧
    (∀ s e, codec.ParseShip p = .ok s →
      codec.ShipPacket { s with Entries := rewriteEntries ip s.Entries } = .error e →
      (ProxyHandlerShip pid ip).HandlePacket codec c p w = (w, .ok (false, some e))) ∧
    (∀ b q, codec.ParseBlock p = .ok b →
      codec.BlockPacket (codec.BlockSetAddress b ip) = .ok q →
      (ProxyHandlerBlock pid ip).HandlePacket codec c p w = (w, .error .nilDereference)) ∧
    (∀ e, codec.ParseBlock p = .error e →
      (ProxyHandlerBlock pid ip).HandlePacket codec c p w = (w, .ok (false, some e))) ∧
    (∀ b e, codec.ParseBlock p = .ok b →
      codec.BlockPacket (codec.BlockSetAddress b ip) = .error e →
      (ProxyHandlerBlock pid ip).HandlePacket codec c p w = (w, .ok (false, some e))) ∧
    (∀ b key rc4key q, codec.ParseCipher p = .ok b → codec.CipherKey b priv = .ok key →
      codec.CipherRC4Key key = .ok rc4key →
      codec.CipherPacket (codec.CipherSetKey b key pub) = .ok q →
      (ProxyHandlerCipher pid priv pub).HandlePacket codec c p w
        = (w, .error .nilDereference)) ∧
    (∀ e, codec.ParseCipher p = .error e →
      (ProxyHandlerCipher pid priv pub).HandlePacket codec c p w = (w, .ok (false, some e))) ∧
    (∀ b e, codec.ParseCipher p = .ok b → codec.CipherKey b priv = .error e →
      (ProxyHandlerCipher pid priv pub).HandlePacket codec c p w = (w, .ok (false, some e))) ∧
    (∀ b key e, codec.ParseCipher p = .ok b → codec.CipherKey b priv = .ok key →
      codec.CipherRC4Key key = .error e →
      (ProxyHandlerCipher pid priv pub).HandlePacket codec c p w = (w, .ok (false, some e))) ∧
    (∀ b key rc4key e, codec.ParseCipher p = .ok b → codec.CipherKey b priv = .ok key →
      codec.CipherRC4Key key = .ok rc4key →
      codec.CipherPacket (codec.CipherSetKey b key pub) = .error e →
      (ProxyHandlerCipher pid priv pub).HandlePacket codec c p w
        = (w, .ok (false, some e))) := by
  have hD : Proxy.Destination pid c w = (none, w) := Prod.ext hmiss rfl
  refine ⟨?_, ?_, ?_, ?_, ?_, ?_, ?_, ?_, ?_, ?_, ?_, ?_⟩
  · simp [proxyHandlerFallback.HandlePacket, ProxyHandlerFallback, hD, forward_nil]
  · intro s q h1 h2
    simp [proxyHandlerShip.HandlePacket, ProxyHandlerShip, h1, h2, hD, forward_nil]
  · intro e h1
    simp [proxyHandlerShip.HandlePacket, ProxyHandlerShip, h1]
  · intro s e h1 h2
    simp [proxyHandlerShip.HandlePacket, ProxyHandlerShip, h1, h2]
  · intro b q h1 h2
    simp [proxyHandlerBlock.HandlePacket, ProxyHandlerBlock, h1, h2, hD, forward_nil]
  · intro e h1
    simp [proxyHandlerBlock.HandlePacket, ProxyHandlerBlock, h1]
  · intro b e h1 h2
    simp [proxyHandlerBlock.HandlePacket, ProxyHandlerBlock, h1, h2]
  · intro b key rc4key q h1 h2 h3 h4
    simp [proxyHandlerCipher.HandlePacket, ProxyHandlerCipher, h1, h2, h3, h4, hD,
      writeThenSetCipher, Connection.WritePacket]
  · intro e h1
    simp [proxyHandlerCipher.HandlePacket, ProxyHandlerCipher, h1]
  · intro b e h1 h2
    simp [proxyHandlerCipher.HandlePacket, ProxyHandlerCipher, h1, h2]
  · intro b key e h1 h2 h3
    simp [proxyHandlerCipher.HandlePacket, ProxyHandlerCipher, h1, h2, h3]
  · intro b key rc4key e h1 h2 h3 h4
    simp [proxyHandlerCipher.HandlePacket, ProxyHandlerCipher, h1, h2, h3, h4]

/-- C4 (amended) at a concrete input: connection 1 with an empty registry; the
ship packet parses and re-serialises, and the ship handler then fails on the nil
peer. -/
theorem miss_is_not_dropped_witness :
    (Proxy.Destination 0 (some 1) unpairedWorld).1 = none ∧
    (ProxyHandlerShip 0 (some [203, 0, 113, 5])).HandlePacket sampleCodec (some 1) shipPacket
        unpairedWorld
      = (unpairedWorld, .error .nilDereference) :=
  ⟨rfl,
    (miss_is_not_dropped sampleCodec 0 (some [203, 0, 113, 5]) none none (some 1) shipPacket
      unpairedWorld rfl).2.1
      { Entries := [{ address := some [0, 0, 0, 0], port := 12099, extra := [] }], extra := [] }
      { type := 61, data := [203, 0, 113, 5, 12099] } rfl rfl⟩

/-- C4 as stated fails: connection 1 is not registered, the lookup is a miss, and
the fallback handler does not drop the packet but calls `WritePacket` on the nil
peer and fails there. -/
theorem fallback_miss_nil_dereference :
    (Proxy.Destination 0 (some 1) unpairedWorld).1 = none ∧
    (ProxyHandlerFallback 0).HandlePacket (some 1) { type := 7, data := [1, 2, 3] } unpairedWorld
      = (unpairedWorld, .error .nilDereference) :=
  ⟨rfl, rfl⟩

/-! ## Endpoint announcements -/

/-- C10: an announcement for a port with no entry returns normally and changes
neither the map nor the heap; an announcement for a port registered to the proxy
at `m` sets that proxy's `clientEndpoint` to the text `ip:port` and changes
nothing else: the map, the other fields of that proxy, every other proxy and
every connection stay as they were. -/
theorem EndpointAnnouncement_frame (ipString : IP → String) (e : EndpointMap) (ip : IP)
    (port : Nat) (w : World) :
    (port ∉ e.keys → e.EndpointAnnouncement ipString ip port w = (e, w, .ok ())) ∧
    (∀ m, e.get? port = some (some m) →
      (e.EndpointAnnouncement ipString ip port w).1 = e ∧
      (e.EndpointAnnouncement ipString ip port w).2.2 = .ok () ∧
      ((e.EndpointAnnouncement ipString ip port w).2.1.proxies m).clientEndpoint
        = ipString ip ++ ":" ++ toString port ∧
      ((e.EndpointAnnouncement ipString ip port w).2.1.proxies m).serverEndpoint
        = (w.proxies m).serverEndpoint ∧
      ((e.EndpointAnnouncement ipString ip port w).2.1.proxies m).connections
        = (w.proxies m).connections ∧
      (∀ x, x ≠ m → (e.EndpointAnnouncement ipString ip port w).2.1.proxies x = w.proxies x) ∧
      (e.EndpointAnnouncement ipString ip port w).2.1.conns = w.conns) := by
  constructor
  · intro hp
    have h := (GoMap.get?_eq_none_iff e port).mpr hp
    simp [EndpointMap.EndpointAnnouncement, h]
  · intro m hm
    have hR : e.EndpointAnnouncement ipString ip port w
        = (e, w.setProxy m
            { w.proxies m with clientEndpoint := sprintfHostPort (ipString ip) port }, .ok ()) := by
      simp [EndpointMap.EndpointAnnouncement, hm]
    rw [hR]
    refine ⟨rfl, rfl, ?_, ?_, ?_, ?_, rfl⟩
    · simp [World.setProxy, sprintfHostPort]
    · simp [World.setProxy]
    · simp [World.setProxy]
    · intro x hx
      simp [World.setProxy, hx]

/-- C10 at a concrete input: port 12001 is registered for the proxy at 0, whose
client endpoint becomes `203.0.113.5:12001`; port 12002 is not registered and
the announcement changes nothing. -/
theorem EndpointAnnouncement_frame_witness :
    ((sampleEndpoints.EndpointAnnouncement (fun _ => "203.0.113.5") (some [203, 0, 113, 5])
        12001 unpairedWorld).2.1.proxies 0).clientEndpoint = "203.0.113.5:12001" ∧
    sampleEndpoints.EndpointAnnouncement (fun _ => "203.0.113.5") (some [203, 0, 113, 5])
        12002 unpairedWorld = (sampleEndpoints, unpairedWorld, .ok ()) := by
  have h1 := (EndpointAnnouncement_frame (fun _ => "203.0.113.5") sampleEndpoints
    (some [203, 0, 113, 5]) 12001 unpairedWorld).2 0 rfl
  have h2 := (EndpointAnnouncement_frame (fun _ => "203.0.113.5") sampleEndpoints
    (some [203, 0, 113, 5]) 12002 unpairedWorld).1 (by simp [sampleEndpoints, GoMap.keys])
  refine ⟨?_, h2⟩
  rw [h1.2.2.1]
  decide

/-! ## The set-up loop -/

theorem forEach_append {α : Type} (body : MainState → α → Except Err MainState)
    (l1 l2 : List α) (st : MainState) :
    forEach body (l1 ++ l2) st
      = match forEach body l1 st with
        | .error e => .error e
        | .ok st1 => forEach body l2 st1 := by
  induction l1 generalizing st with
  | nil => rfl
  | cons a rest ih =>
    simp only [List.cons_append, forEach]
    cases body st a with
    | error e => rfl
    | ok st1 => exact ih st1

theorem forEach_cons {α : Type} (body : MainState → α → Except Err MainState)
    (a : α) (rest : List α) (st : MainState) :
    forEach body (a :: rest) st
      = match body st a with
        | .error e => .error e
        | .ok st1 => forEach body rest st1 := rfl

theorem forEach_singleton {α : Type} (body : MainState → α → Except Err MainState)
    (a : α) (st : MainState) : forEach body [a] st = body st a := by
  simp only [forEach]
  cases body st a <;> rfl

theorem forEach_map {α β : Type} (body : MainState → β → Except Err MainState) (g : α → β)
    (l : List α) (st : MainState) :
    forEach body (l.map g) st = forEach (fun s a => body s (g a)) l st := by
  induction l generalizing st with
  | nil => rfl
  | cons a rest ih =>
    simp only [List.map_cons, forEach]
    cases body st (g a) with
    | error e => rfl
    | ok st1 => exact ih st1

theorem registerJob_eq (listen : String → Option Err) (v : MainVars) (st : MainState) (j : Job) :
    registerJob listen v st j
      = match listen (sprintfHostPort v.flagBind j.port) with
        | some e => .error e
        | none => .ok (registered v st j) := by
  simp only [registerJob, startProxy, Proxy.Listen, setEndpoint, newProxy, NewProxy, registered,
    if_true]
  cases listen (sprintfHostPort v.flagBind j.port) <;> rfl

theorem shipIteration_eq_jobs (listen : String → Option Err) (k : PacketConsts) (v : MainVars)
    (st : MainState) (i : Nat) :
    shipIteration listen k v st i = forEach (registerJob listen v) (shipJobs k v i) st := by
  simp only [shipJobs, forEach_cons, forEach_map]
  rfl

theorem forEach_shipIteration (listen : String → Option Err) (k : PacketConsts) (v : MainVars)
    (n : Nat) :
    forEach (shipIteration listen k v) (List.range n) MainState.init
      = forEach (registerJob listen v) (allJobs k v n) MainState.init := by
  induction n with
  | zero => rfl
  | succ n ih =>
    rw [List.range_succ, forEach_append, ih]
    simp only [allJobs]
    rw [forEach_append]
    cases forEach (registerJob listen v) (allJobs k v n) MainState.init with
    | error e => rfl
    | ok st1 =>
      simp only []
      rw [forEach_singleton, shipIteration_eq_jobs]

theorem forEach_registerJob_ok (listen : String → Option Err) (v : MainVars) (js : List Job)
    (st st' : MainState) (h : forEach (registerJob listen v) js st = .ok st') :
    st' = js.foldl (registered v) st := by
  induction js generalizing st with
  | nil =>
    simp only [forEach] at h
    cases h
    rfl
  | cons j rest ih =>
    simp only [forEach, registerJob_eq] at h
    cases hl : listen (sprintfHostPort v.flagBind j.port) with
    | some e => simp [hl] at h
    | none =>
      simp only [hl] at h
      exact ih _ h

theorem forEach_registerJob_all (listen : String → Option Err) (v : MainVars) (js : List Job)
    (st : MainState) (hall : ∀ a, listen a = none) :
    forEach (registerJob listen v) js st = .ok (js.foldl (registered v) st) := by
  induction js generalizing st with
  | nil => rfl
  | cons j rest ih =>
    simp only [forEach, registerJob_eq, hall, List.foldl_cons]
    exact ih _

theorem setupProxies_ok (listen : String → Option Err) (k : PacketConsts) (v : MainVars)
    (st : MainState) (h : setupProxies listen k v = .ok st) :
    st = runJobs v (allJobs k v k.ShipCount) := by
  rw [setupProxies, forEach_shipIteration] at h
  exact forEach_registerJob_ok listen v _ _ _ h

theorem setupProxies_completes (listen : String → Option Err) (k : PacketConsts) (v : MainVars)
    (hall : ∀ a, listen a = none) :
    setupProxies listen k v = .ok (runJobs v (allJobs k v k.ShipCount)) := by
  rw [setupProxies, forEach_shipIteration]
  exact forEach_registerJob_all listen v _ _ hall

theorem main_completes (env : Env) (k : PacketConsts) (f : Flags) (v : MainVars)
    (hv : mainVars env f = .ok v) (hr : f.flagReplay = "") (hall : ∀ a, env.Listen a = none) :
    main env k f = .ok (runJobs v (allJobs k v k.ShipCount)) := by
  simp only [main, hv, hr, ne_eq, not_true_eq_false, if_false]
  exact setupProxies_completes env.Listen k v hall

theorem runJobs_snoc (v : MainVars) (js : List Job) (j : Job) :
    runJobs v (js ++ [j]) = registered v (runJobs v js) j := by
  simp [runJobs, List.foldl_append]

theorem runJobs_next (v : MainVars) (js : List Job) : (runJobs v js).next = js.length := by
  induction js using List.reverseRecOn with
  | nil => rfl
  | append_singleton l a ih =>
    rw [runJobs_snoc]
    simp [registered, ih]

theorem runJobs_started_length (v : MainVars) (js : List Job) :
    (runJobs v js).started.length = js.length := by
  induction js using List.reverseRecOn with
  | nil => rfl
  | append_singleton l a ih =>
    rw [runJobs_snoc]
    simp [registered, ih]

theorem runJobs_started (v : MainVars) (js : List Job) (n : Nat) (j : Job)
    (h : js[n]? = some j) :
    (runJobs v js).started[n]?
      = some { proxy := n, listener := sprintfHostPort v.flagBind j.port,
               serverRoute := j.mkServer n, clientRoute := j.mkClient n } := by
  induction js using List.reverseRecOn with
  | nil => simp at h
  | append_singleton l a ih =>
    rw [runJobs_snoc]
    have hlen := runJobs_started_length v l
    have hnext := runJobs_next v l
    by_cases hn : n < l.length
    · rw [List.getElem?_append_left hn] at h
      have h1 := ih h
      simp only [registered]
      rw [List.getElem?_append_left (by omega)]
      exact h1
    · have hlt : n < (l ++ [a]).length := by
        rcases List.getElem?_eq_some_iff.mp h with ⟨hlt, _⟩
        exact hlt
      have hn' : n = l.length := by
        simp at hlt
        omega
      subst hn'
      rw [List.getElem?_concat_length] at h
      cases h
      simp only [registered]
      rw [← hlen, List.getElem?_concat_length, hnext, hlen]

theorem runJobs_proxies (v : MainVars) (js : List Job) (n : Nat) (j : Job)
    (h : js[n]? = some j) :
    (runJobs v js).proxies n
      = NewProxy (sprintfHostPort v.flagBind j.port) (sprintfHostPort j.host j.port) := by
  induction js using List.reverseRecOn with
  | nil => simp at h
  | append_singleton l a ih =>
    rw [runJobs_snoc]
    have hnext := runJobs_next v l
    by_cases hn : n < l.length
    · rw [List.getElem?_append_left hn] at h
      have h1 := ih h
      have hne : n ≠ (runJobs v l).next := by omega
      simp [registered, hne, h1]
    · have hlt : n < (l ++ [a]).length := by
        rcases List.getElem?_eq_some_iff.mp h with ⟨hlt, _⟩
        exact hlt
      have hn' : n = l.length := by
        simp at hlt
        omega
      subst hn'
      rw [List.getElem?_concat_length] at h
      cases h
      simp [registered, hnext]

theorem shipJobs_length (k : PacketConsts) (v : MainVars) (i : Nat) :
    (shipJobs k v i).length = 100 := by
  simp [shipJobs]

theorem allJobs_length (k : PacketConsts) (v : MainVars) (n : Nat) :
    (allJobs k v n).length = 100 * n := by
  induction n with
  | zero => rfl
  | succ n ih =>
    simp only [allJobs, List.length_append, ih, shipJobs_length]
    omega

theorem allJobs_getElem? (k : PacketConsts) (v : MainVars) (n i o : Nat) (hi : i < n)
    (ho : o < 100) : (allJobs k v n)[100 * i + o]? = (shipJobs k v i)[o]? := by
  induction n with
  | zero => omega
  | succ n ih =>
    simp only [allJobs]
    by_cases hin : i < n
    · rw [List.getElem?_append_left (by rw [allJobs_length]; omega)]
      exact ih hin
    · have hi' : i = n := by omega
      subst hi'
      rw [List.getElem?_append_right (by rw [allJobs_length]; omega), allJobs_length]
      congr 1
      omega

theorem shipJobs_room (k : PacketConsts) (v : MainVars) (i b : Nat) (h1 : 1 ≤ b) (h2 : b < 99) :
    (shipJobs k v i)[b + 1]?
      = some { host := hostname k v i, port := toUint16 (toUint16 (12000 + 100 * i) + b),
               mkServer := serverRoute k v, mkClient := clientRoute k v } := by
  obtain ⟨c, rfl⟩ : ∃ c, b = c + 1 := ⟨b - 1, by omega⟩
  have hc : c < 98 := by omega
  simp only [shipJobs, List.getElem?_cons_succ, List.getElem?_map, List.getElem?_range' 1 1 hc]
  simp [Nat.add_comm]

theorem run_job (k : PacketConsts) (v : MainVars) (n i idx : Nat) (j : Job)
    (hi : i < n) (hidx : idx < 100) (hj : (shipJobs k v i)[idx]? = some j) :
    (runJobs v (allJobs k v n)).started[100 * i + idx]?
      = some { proxy := 100 * i + idx, listener := sprintfHostPort v.flagBind j.port,
               serverRoute := j.mkServer (100 * i + idx),
               clientRoute := j.mkClient (100 * i + idx) } ∧
    (runJobs v (allJobs k v n)).proxies (100 * i + idx)
      = NewProxy (sprintfHostPort v.flagBind j.port) (sprintfHostPort j.host j.port) := by
  have hget : (allJobs k v n)[100 * i + idx]? = some j := by
    rw [allJobs_getElem? k v n i idx hi hidx]
    exact hj
  exact ⟨runJobs_started v _ _ j hget, runJobs_proxies v _ _ j hget⟩

theorem serverRoute_cipher_entries (k : PacketConsts) (v : MainVars) (pid : Nat) :
    { matcher := .exact k.TypeCipher, priority := .RoutePriorityHigh,
      handler := .handlerIgnore (.handlerCipher v.keyPrivate) } ∈ serverRoute k v pid ∧
    { matcher := .exact k.TypeCipher, priority := .RoutePriorityNormal,
      handler := .cipher (ProxyHandlerCipher pid v.keyPrivate v.keyPublic) }
      ∈ serverRoute k v pid := by
  constructor <;> by_cases hd : v.flagDump = "" <;>
    simp [serverRoute, withDump, PacketRoute.Route, PacketRoute.RouteMask, hd]

/-- C8 (amended): for every flag configuration, with or without loaded keys, the
server route `sroute` that the set-up builds for each proxy of offsets 1..98
holds both cipher-handshake entries, built with the key variables as they are
(nil when the key is not loaded); no entry is left out for a missing key.  Every
set-up that completes has started that proxy with this route, and the set-up
completes when every bind succeeds. -/
theorem serverRoute_always_has_cipher (k : PacketConsts) (v : MainVars) (i b : Nat)
    (hi : i < k.ShipCount) (h1 : 1 ≤ b) (h2 : b < 99) :
    ({ matcher := .exact k.TypeCipher, priority := .RoutePriorityHigh,
       handler := .handlerIgnore (.handlerCipher v.keyPrivate) }
        ∈ serverRoute k v (100 * i + (b + 1)) ∧
      { matcher := .exact k.TypeCipher, priority := .RoutePriorityNormal,
        handler := .cipher (ProxyHandlerCipher (100 * i + (b + 1)) v.keyPrivate v.keyPublic) }
        ∈ serverRoute k v (100 * i + (b + 1))) ∧
    (∀ listen st, setupProxies listen k v = .ok st →
      ∃ s, st.started[100 * i + (b + 1)]? = some s ∧
        s.proxy = 100 * i + (b + 1) ∧
        s.serverRoute = serverRoute k v (100 * i + (b + 1)) ∧
        st.proxies (100 * i + (b + 1))
          = NewProxy
              (sprintfHostPort v.flagBind (toUint16 (toUint16 (12000 + 100 * i) + b)))
              (sprintfHostPort (hostname k v i) (toUint16 (toUint16 (12000 + 100 * i) + b))) ∧
        { matcher := .exact k.TypeCipher, priority := .RoutePriorityHigh,
          handler := .handlerIgnore (.handlerCipher v.keyPrivate) } ∈ s.serverRoute ∧
        { matcher := .exact k.TypeCipher, priority := .RoutePriorityNormal,
          handler := .cipher (ProxyHandlerCipher (100 * i + (b + 1)) v.keyPrivate v.keyPublic) }
          ∈ s.serverRoute) ∧
    (∀ listen : String → Option Err, (∀ a, listen a = none) →
      ∃ st, setupProxies listen k v = .ok st) := by
  have hE := serverRoute_cipher_entries k v (100 * i + (b + 1))
  refine ⟨hE, ?_, ?_⟩
  · intro listen st hst
    have hst' := setupProxies_ok listen k v st hst
    subst hst'
    have h := run_job k v k.ShipCount i (b + 1) _ hi (by omega) (shipJobs_room k v i b h1 h2)
    exact ⟨_, h.1, rfl, rfl, h.2, hE.1, hE.2⟩
  · intro listen hall
    exact ⟨_, setupProxies_completes listen k v hall⟩

/-- C8 (amended) at a concrete input: ten ships, no key loaded, every bind
succeeding, the proxy of ship 0 at offset 1. -/
theorem serverRoute_always_has_cipher_witness :
    ∃ st s, setupProxies sampleEnv.Listen sampleConsts noKeyVars = .ok st ∧
      st.started[2]? = some s ∧ s.serverRoute = serverRoute sampleConsts noKeyVars 2 := by
  have h := serverRoute_always_has_cipher sampleConsts noKeyVars 0 1 (by decide) (by decide)
    (by decide)
  obtain ⟨st, hst⟩ := h.2.2 sampleEnv.Listen (fun _ => rfl)
  obtain ⟨s, hs, _, hr, _⟩ := h.2.1 sampleEnv.Listen st hst
  exact ⟨st, s, hst, hs, hr⟩

/-- C8 as stated fails: with neither `-priv` nor `-pub` given both key variables
are nil, and the server route of the proxy of ship 0 at offset 1 that `main`
starts still holds both cipher-handshake entries, built on the nil keys. -/
theorem serverRoute_cipher_without_keys :
    mainVars sampleEnv noKeyFlags = .ok noKeyVars ∧
    noKeyVars.keyPrivate = none ∧ noKeyVars.keyPublic = none ∧
    ∃ st s, main sampleEnv sampleConsts noKeyFlags = .ok st ∧ st.started[2]? = some s ∧
      { matcher := .exact sampleConsts.TypeCipher, priority := .RoutePriorityHigh,
        handler := .handlerIgnore (.handlerCipher none) } ∈ s.serverRoute ∧
      { matcher := .exact sampleConsts.TypeCipher, priority := .RoutePriorityNormal,
        handler := .cipher (ProxyHandlerCipher 2 none none) } ∈ s.serverRoute := by
  have hm := main_completes sampleEnv sampleConsts noKeyFlags noKeyVars rfl rfl (fun _ => rfl)
  have h := run_job sampleConsts noKeyVars sampleConsts.ShipCount 0 2 _ (by decide) (by decide)
    (shipJobs_room sampleConsts noKeyVars 0 1 (by decide) (by decide))
  have hE := serverRoute_cipher_entries sampleConsts noKeyVars 2
  exact ⟨rfl, rfl, rfl, _, _, hm, h.1, hE.1, hE.2⟩

end Pso2
